import Mathlib

/-!
Shallow embedding of the Polymarket arbitrage / copy-trading bot core
(risk-manager, wallet-monitor, order-executor, arbitrage-detector and
copy-trader modules), with theorems checking the natural-language
specification against the code.

Monetary quantities and prices are embedded as rationals; JavaScript
`Map`s keyed by strings are embedded as association lists with JS `Map`
first-match/insertion-order semantics; `Date` values are embedded as a
pair of an absolute day index and the day-of-month that `getDate()`
returns (plus plain integer milliseconds where only durations matter);
optional values (`undefined`) are embedded as `Option`.  External calls
(order placement and cancel APIs, order-book fetches) are embedded as
explicit parameters carrying the responses the environment returns.
-/

namespace PolyBot

/-- Binary market outcome, `'YES' | 'NO'` in the source. -/
inductive Outcome where
  | YES
  | NO
deriving DecidableEq, Repr

/-- Order side, `'buy' | 'sell'` in the source. -/
inductive Side where
  | buy
  | sell
deriving DecidableEq, Repr

/-- A JS `Date` as observed by the risk manager: `epochDay` is the
absolute calendar-day index (days since the epoch), `dayOfMonth` is what
JavaScript `Date.getDate()` returns (1-31). -/
structure JsDate where
  epochDay : Nat
  dayOfMonth : Nat
deriving DecidableEq, Repr

/-- Association-list embedding of JS `Map.get` (first matching key). -/
def mapLookup {α : Type} (l : List (String × α)) (k : String) : Option α :=
  match l with
  | [] => none
  | (k1, v) :: rest => if k1 = k then some v else mapLookup rest k

/-- Association-list embedding of JS `Map.set`: replace the first entry
with the given key in place, or append a new entry at the end. -/
def mapSet {α : Type} (l : List (String × α)) (k : String) (v : α) : List (String × α) :=
  match l with
  | [] => [(k, v)]
  | (k1, v1) :: rest => if k1 = k then (k, v) :: rest else (k1, v1) :: mapSet rest k v

/-! ## Risk manager (`risk-manager.ts`, `RiskManager`) -/

/-- `RiskConfig` from `config.ts` (fields the risk manager reads). -/
structure RiskConfig where
  maxTotalExposureUsd : ℚ
  maxPositionPerMarketUsd : ℚ
  maxDailyLossUsd : ℚ
  enableAutoHedge : Bool
deriving DecidableEq, Repr

/-- `Position` interface from `risk-manager.ts`.  `timestamp` is epoch
milliseconds of the `new Date()` taken at record time. -/
structure Position where
  marketId : String
  outcome : Outcome
  side : Side
  sizeUsd : ℚ
  entryPrice : ℚ
  timestamp : Nat
deriving DecidableEq, Repr

/-- Mutable state of a `RiskManager` instance. -/
structure RiskManagerState where
  positions : List (String × List Position)
  totalExposure : ℚ
  dailyPnl : ℚ
  lastResetDate : JsDate
deriving DecidableEq, Repr

/-- Constructor state: empty position map, zero exposure and PnL,
`lastResetDate = new Date()`. -/
def initialRiskState (d : JsDate) : RiskManagerState :=
  { positions := [], totalExposure := 0, dailyPnl := 0, lastResetDate := d }

/-- Sum of `sizeUsd` over a list of positions (the `reduce` in the source). -/
def posSum (l : List Position) : ℚ :=
  (l.map (fun p => p.sizeUsd)).sum

/-- Sum of `sizeUsd` over every open position in a position map. -/
def sumMarkets (ps : List (String × List Position)) : ℚ :=
  (ps.map (fun kv => posSum kv.2)).sum

/-- Number of open positions held in a position map. -/
def countPositions (ps : List (String × List Position)) : Nat :=
  (ps.map (fun kv => kv.2.length)).sum

/-- Exposure currently booked for one market:
`(this.positions.get(marketId) || []).reduce((sum, p) => sum + p.sizeUsd, 0)`. -/
def marketExposure (s : RiskManagerState) (marketId : String) : ℚ :=
  posSum ((mapLookup s.positions marketId).getD [])

/-- `RiskManager.canOpenPosition`: daily-loss hard stop, then total
exposure ceiling, then per-market ceiling; first failing check rejects. -/
def canOpenPosition (cfg : RiskConfig) (s : RiskManagerState)
    (marketId : String) (sizeUsd : ℚ) : Bool :=
  if s.dailyPnl ≤ -cfg.maxDailyLossUsd then false
  else if cfg.maxTotalExposureUsd < s.totalExposure + sizeUsd then false
  else if cfg.maxPositionPerMarketUsd < marketExposure s marketId + sizeUsd then false
  else true

/-- Append a position to a market's list, creating the entry when the
market is not yet in the map (the `has`/`set`/`push` sequence in
`recordPosition`). -/
def insertPos (ps : List (String × List Position)) (m : String) (p : Position) :
    List (String × List Position) :=
  match ps with
  | [] => [(m, [p])]
  | (k, l) :: rest =>
      if k = m then (k, l ++ [p]) :: rest else (k, l) :: insertPos rest m p

/-- `RiskManager.recordPosition`.  A missing `entryPrice` defaults to `0.0`
(`entryPrice: entryPrice || 0.0`). -/
def recordPosition (s : RiskManagerState) (marketId : String) (sizeUsd : ℚ)
    (outcome : Outcome) (side : Side) (entryPrice : Option ℚ) (now : Nat) :
    RiskManagerState :=
  let p : Position :=
    { marketId := marketId, outcome := outcome, side := side,
      sizeUsd := sizeUsd, entryPrice := entryPrice.getD 0, timestamp := now }
  { s with positions := insertPos s.positions marketId p,
           totalExposure := s.totalExposure + sizeUsd }

/-- Remove the first position in a list matching
`p.outcome === outcome && p.side === 'buy'` (the `filter`/`[0]`/`indexOf`/
`splice` sequence in `closePosition`), returning the remaining list and
the removed position if any. -/
def removeFirstMatch (l : List Position) (o : Outcome) :
    List Position × Option Position :=
  match l with
  | [] => ([], none)
  | p :: rest =>
      if p.outcome = o ∧ p.side = Side.buy then (rest, some p)
      else
        let r := removeFirstMatch rest o
        (p :: r.1, r.2)

/-- Realized-PnL formula of `closePosition`: computed only when
`exitPrice` is truthy and the entry price is positive, otherwise `0.0`. -/
def closePnl (p : Position) (exitPrice : Option ℚ) : ℚ :=
  match exitPrice with
  | some e => if e ≠ 0 ∧ 0 < p.entryPrice
              then (e - p.entryPrice) * p.sizeUsd / p.entryPrice else 0
  | none => 0

/-- `RiskManager.closePosition`: FIFO-per-outcome close of a `buy`
position, reducing total exposure and adding realized PnL to the daily
total; `null` when nothing matches. -/
def closePosition (s : RiskManagerState) (marketId : String) (outcome : Outcome)
    (exitPrice : Option ℚ) : RiskManagerState × Option ℚ :=
  match mapLookup s.positions marketId with
  | none => (s, none)
  | some l =>
      if l.isEmpty then (s, none)
      else
        match removeFirstMatch l outcome with
        | (l1, some p) =>
            let pnl := closePnl p exitPrice
            ({ s with positions := mapSet s.positions marketId l1,
                      totalExposure := s.totalExposure - p.sizeUsd,
                      dailyPnl := s.dailyPnl + pnl }, some pnl)
        | (_, none) => (s, none)

/-- `ExposureMetrics` interface from `risk-manager.ts`. -/
structure ExposureMetrics where
  totalExposureUsd : ℚ
  dailyPnlUsd : ℚ
  openPositions : Nat
  marketExposures : List (String × ℚ)
  availableExposure : ℚ
deriving DecidableEq, Repr

/-- `RiskManager.getExposure`: lazily resets the daily PnL when the
current date's `getDate()` (day of month) differs from the last reset
date's, then reports the metrics.  Returns the updated state together
with the metrics. -/
def getExposure (cfg : RiskConfig) (s : RiskManagerState) (currentDate : JsDate) :
    RiskManagerState × ExposureMetrics :=
  let s1 := if currentDate.dayOfMonth ≠ s.lastResetDate.dayOfMonth
            then { s with dailyPnl := 0, lastResetDate := currentDate }
            else s
  (s1,
   { totalExposureUsd := s1.totalExposure,
     dailyPnlUsd := s1.dailyPnl,
     openPositions := (s1.positions.map (fun kv => kv.2.length)).sum,
     marketExposures := s1.positions.map (fun kv => (kv.1, posSum kv.2)),
     availableExposure := cfg.maxTotalExposureUsd - s1.totalExposure })

/-- One call against the ledger-mutating interface of `RiskManager`. -/
inductive RMOp where
  | record (marketId : String) (sizeUsd : ℚ) (outcome : Outcome) (side : Side)
      (entryPrice : Option ℚ) (ts : Nat)
  | close (marketId : String) (outcome : Outcome) (exitPrice : Option ℚ)

/-- Apply one ledger call to a risk-manager state. -/
def applyOp (s : RiskManagerState) : RMOp → RiskManagerState
  | RMOp.record m sz o sd e ts => recordPosition s m sz o sd e ts
  | RMOp.close m o e => (closePosition s m o e).1

/-- Apply a sequence of ledger calls in order. -/
def applyOps (s : RiskManagerState) (ops : List RMOp) : RiskManagerState :=
  ops.foldl applyOp s

/-- The bookkeeping invariant: the incrementally tracked `totalExposure`
counter agrees with the sum of sizes over open positions. -/
def exposureInvariant (s : RiskManagerState) : Prop :=
  s.totalExposure = sumMarkets s.positions

/-! ## Order executor (`order-executor.ts`, `OrderExecutor`) -/

/-- `Order` interface from `order-executor.ts` (outcome and side kept as
the plain strings the source uses). -/
structure Order where
  orderId : String
  marketId : String
  outcome : Outcome
  side : Side
  price : ℚ
  size : ℚ
  status : String
deriving DecidableEq, Repr

/-- Mutable state of an `OrderExecutor`: the `activeOrders` map. -/
structure OrderExecutorState where
  activeOrders : List (String × Order)
deriving DecidableEq, Repr

/-- `OrderExecutor.placeOrder`, with the order API's response embedded as
`api : Option String` (the order id extracted from the result, `none` when
the call failed or the result carried no id).  On an id the order is
tracked as `pending` and returned; otherwise `null` and no tracked order. -/
def placeOrder (oe : OrderExecutorState) (marketId : String) (outcome : Outcome)
    (side : Side) (price size : ℚ) (api : Option String) :
    OrderExecutorState × Option Order :=
  match api with
  | some oid =>
      let ord : Order :=
        { orderId := oid, marketId := marketId, outcome := outcome, side := side,
          price := price, size := size, status := "pending" }
      ({ activeOrders := mapSet oe.activeOrders oid ord }, some ord)
  | none => (oe, none)

/-- `OrderExecutor.cancelOrder`, with the cancel API's response embedded
as `api : String → Bool`: unknown order ids fail, a successful API call
marks the tracked order `cancelled`. -/
def cancelOrder (oe : OrderExecutorState) (oid : String) (api : String → Bool) :
    OrderExecutorState × Bool :=
  match mapLookup oe.activeOrders oid with
  | none => (oe, false)
  | some ord =>
      if api oid then
        ({ activeOrders := mapSet oe.activeOrders oid { ord with status := "cancelled" } },
         true)
      else (oe, false)

/-! ## Arbitrage detector (`arbitrage-detector.ts`, `ArbitrageDetector`) -/

/-- `ArbitrageConfig` from `config.ts`. -/
structure ArbitrageConfig where
  minArbProfitPct : ℚ
  maxArbProfitPct : ℚ
  internalArbEnabled : Bool
  crossPlatformEnabled : Bool
  minLiquidityUsd : ℚ
  maxSlippagePct : ℚ
deriving DecidableEq, Repr

/-- `'internal' | 'cross_platform'` opportunity type. -/
inductive OppType where
  | internal
  | cross_platform
deriving DecidableEq, Repr

/-- `ArbitrageOpportunity` interface from `arbitrage-detector.ts`. -/
structure ArbitrageOpportunity where
  marketId : String
  marketQuestion : String
  opportunityType : OppType
  yesPrice : ℚ
  noPrice : ℚ
  totalCost : ℚ
  profitPct : ℚ
  profitUsd : ℚ
  liquidityYes : ℚ
  liquidityNo : ℚ
  timestamp : Nat
deriving DecidableEq, Repr

/-- One ask level of an order book side. -/
structure AskLevel where
  price : ℚ
  size : ℚ
deriving DecidableEq, Repr

/-- An order book snapshot for one market: ask levels per outcome (the
only order-book data the detector reads). -/
structure OrderBook where
  marketQuestion : String
  yesAsks : List AskLevel
  noAsks : List AskLevel
deriving DecidableEq, Repr

/-- `ArbitrageDetector.getBestAsk`: the lowest-price ask level (the sort
in the source is stable, so ties keep the earlier level). -/
def getBestAsk (asks : List AskLevel) : Option AskLevel :=
  asks.foldl
    (fun acc a =>
      match acc with
      | none => some a
      | some b => if a.price < b.price then some a else some b)
    none

/-- `ArbitrageDetector.detectInternalArbitrage`: fee-adjusted cost is
`(askYES + askNO) * 1.01`; an opportunity is produced only when that cost
is below `0.99`, with `profitPct = (1 - feeAdjustedCost) / feeAdjustedCost`
and per-leg liquidity `ask size * ask price`. -/
def detectInternalArbitrage (marketId : String) (ob : OrderBook) (now : Nat) :
    Option ArbitrageOpportunity :=
  match getBestAsk ob.yesAsks, getBestAsk ob.noAsks with
  | some ya, some na =>
      let yesPrice := ya.price
      let noPrice := na.price
      let totalCost := yesPrice + noPrice
      let feeAdjustedCost := totalCost * (101 / 100)
      if feeAdjustedCost < 99 / 100 then
        let profitPct := (1 - feeAdjustedCost) / feeAdjustedCost
        some
          { marketId := marketId,
            marketQuestion := ob.marketQuestion,
            opportunityType := OppType.internal,
            yesPrice := yesPrice, noPrice := noPrice,
            totalCost := totalCost,
            profitPct := profitPct,
            profitUsd := profitPct * 1,
            liquidityYes := ya.size * yesPrice,
            liquidityNo := na.size * noPrice,
            timestamp := now }
      else none
  | _, _ => none

/-- `ArbitrageDetector.detectCrossPlatformArbitrage`: unimplemented stub,
always `null`. -/
def detectCrossPlatformArbitrage (_marketId : String) (_ob : OrderBook) :
    Option ArbitrageOpportunity :=
  none

/-- `ArbitrageDetector.isValid`: profit fraction within the configured
bounds and both legs' liquidity at least the configured minimum. -/
def isValid (cfg : ArbitrageConfig) (opp : ArbitrageOpportunity) : Bool :=
  if opp.profitPct < cfg.minArbProfitPct then false
  else if cfg.maxArbProfitPct < opp.profitPct then false
  else if opp.liquidityYes < cfg.minLiquidityUsd then false
  else if opp.liquidityNo < cfg.minLiquidityUsd then false
  else true

/-- `ArbitrageDetector.scanMarket`, with the order-book fetch embedded as
`ob : Option OrderBook` (`none` for a fetch failure or missing book).
A computed-but-invalid internal opportunity is discarded and the
cross-platform stub is consulted next, which always yields nothing. -/
def scanMarket (cfg : ArbitrageConfig) (marketId : String)
    (ob : Option OrderBook) (now : Nat) : Option ArbitrageOpportunity :=
  match ob with
  | none => none
  | some book =>
      let internalRes :=
        if cfg.internalArbEnabled then
          match detectInternalArbitrage marketId book now with
          | some opp => if isValid cfg opp then some opp else none
          | none => none
        else none
      match internalRes with
      | some opp => some opp
      | none =>
          if cfg.crossPlatformEnabled then
            match detectCrossPlatformArbitrage marketId book with
            | some opp => if isValid cfg opp then some opp else none
            | none => none
          else none

/-- The detector's `activeOpportunities` map. -/
def OpportunityCacheState : Type := List (String × ArbitrageOpportunity)

/-- `ArbitrageDetector.scanMarkets`, with the per-market order-book
fetches embedded as `books : String → Option OrderBook`: collect the
successful scans, then `set` each collected opportunity into the
`activeOpportunities` map; scans yielding nothing write nothing.
Returns the updated map and the collected opportunities. -/
def scanMarkets (cfg : ArbitrageConfig) (cache : List (String × ArbitrageOpportunity))
    (books : String → Option OrderBook) (marketIds : List String) (now : Nat) :
    List (String × ArbitrageOpportunity) × List ArbitrageOpportunity :=
  let opportunities := marketIds.filterMap (fun mid => scanMarket cfg mid (books mid) now)
  (opportunities.foldl (fun c opp => mapSet c opp.marketId opp) cache, opportunities)

/-- `ArbitrageDetector.hasOpportunity`: a cached entry exists and is
currently valid. -/
def hasOpportunity (cfg : ArbitrageConfig)
    (cache : List (String × ArbitrageOpportunity)) (marketId : String) : Bool :=
  match mapLookup cache marketId with
  | some opp => isValid cfg opp
  | none => false

/-- `ArbitrageDetector.getOpportunity`: cached entry or `null`, with no
validity check. -/
def getOpportunity (cache : List (String × ArbitrageOpportunity))
    (marketId : String) : Option ArbitrageOpportunity :=
  mapLookup cache marketId

/-! ## Wallet monitor (`wallet-monitor.ts`, `WalletMonitor`) -/

/-- `WalletTrade` interface from `wallet-monitor.ts`; `timestamp` is
epoch milliseconds. -/
structure WalletTrade where
  walletAddress : String
  walletName : String
  marketId : String
  marketQuestion : String
  outcome : Outcome
  side : Side
  price : ℚ
  size : ℚ
  sizeUsd : ℚ
  timestamp : Int
  txHash : Option String
deriving DecidableEq, Repr

/-- Per-wallet mutable state of `WalletMonitor`: the emitted-trade
history, the known position-id set and the last-seen timestamp. -/
structure MonitorWalletState where
  history : List WalletTrade
  knownPositions : List String
  lastTimestamp : Option Int
deriving DecidableEq, Repr

/-- `WalletMonitor.isNewTrade`: a trade is new unless some already
recorded trade shares its transaction hash (when the incoming trade has
one), or shares market, outcome and side with a timestamp within 5000 ms. -/
def isNewTrade (history : List WalletTrade) (t : WalletTrade) : Bool :=
  history.all fun ex =>
    !(t.txHash.isSome && ex.txHash == t.txHash) &&
    !(ex.marketId == t.marketId && ex.outcome == t.outcome && ex.side == t.side &&
      decide ((ex.timestamp - t.timestamp).natAbs < 5000))

/-- The per-trade body of `WalletMonitor.checkWallet` after a successful
parse: skip a known position id (remembering a fresh one), then emit the
trade only when `isNewTrade` passes, appending it to the history and
advancing the watermark.  Returns the updated state and whether the trade
was emitted. -/
def processParsedTrade (st : MonitorWalletState) (positionId : Option String)
    (t : WalletTrade) : MonitorWalletState × Bool :=
  let step : MonitorWalletState → MonitorWalletState × Bool := fun st1 =>
    if isNewTrade st1.history t then
      ({ st1 with history := st1.history ++ [t], lastTimestamp := some t.timestamp },
       true)
    else (st1, false)
  match positionId with
  | some pid =>
      if st.knownPositions.contains pid then (st, false)
      else step { st with knownPositions := pid :: st.knownPositions }
  | none => step st

/-! ## Copy trader (`copy-trader.ts`, `CopyTrader`) -/

/-- `WalletConfig` from `config.ts` (fields the copy trader reads). -/
structure WalletConfig where
  address : String
  name : String
  enabled : Bool
  minWinRate : ℚ
  maxPositionSizeUsd : ℚ
  positionSizeMultiplier : ℚ
  marketsFilter : Option (List String)
  requireArbSignal : Bool
deriving DecidableEq, Repr

/-- The copy trader's `copiedTrades` map (only key membership matters). -/
structure CopyTraderState where
  copiedTrades : List String
deriving DecidableEq, Repr

/-- String rendering of an optional transaction hash inside a JS template
literal: `undefined` renders as the literal text `"undefined"`. -/
def optHashStr : Option String → String
  | some h => h
  | none => "undefined"

/-- Rendering of an outcome in a template literal. -/
def outcomeStr : Outcome → String
  | Outcome.YES => "YES"
  | Outcome.NO => "NO"

/-- Rendering of a side in a template literal. -/
def sideStr : Side → String
  | Side.buy => "buy"
  | Side.sell => "sell"

/-- The composite dedup key of `CopyTrader.processTrade`:
`` `${trade.txHash}_${trade.marketId}_${trade.outcome}_${trade.side}` ``. -/
def tradeKey (t : WalletTrade) : String :=
  optHashStr t.txHash ++ "_" ++ t.marketId ++ "_" ++
    outcomeStr t.outcome ++ "_" ++ sideStr t.side

/-- `CopyTrader.calculatePositionSize`: observed quote size scaled by the
multiplier, capped at the wallet's max position size, floored to zero
below the $10 minimum viable size. -/
def calculatePositionSize (cfg : WalletConfig) (trade : WalletTrade) : ℚ :=
  let scaledSize := trade.sizeUsd * cfg.positionSizeMultiplier
  let finalSize := min scaledSize cfg.maxPositionSizeUsd
  if finalSize < 10 then 0 else finalSize

/-- Responses of the order API during one execution: the ids returned for
the hedged YES leg, the hedged NO leg and the directional order, and the
cancel API's outcome per order id. -/
structure ExecEnv where
  yesApi : Option String
  noApi : Option String
  dirApi : Option String
  cancelApi : String → Bool

/-- A placement attempt handed to `OrderExecutor.placeOrder`. -/
structure PlaceReq where
  marketId : String
  outcome : Outcome
  side : Side
  price : ℚ
  size : ℚ
deriving DecidableEq, Repr

/-- Result of an execution step: updated risk and order state, success
flag, the placements attempted and the cancels issued. -/
structure ExecOutcome where
  risk : RiskManagerState
  orders : OrderExecutorState
  success : Bool
  placed : List PlaceReq
  cancelled : List String

/-- `CopyTrader.executeArbitrageTrade`: split the notional 50/50, convert
each half to shares at the recorded leg prices, place both orders; record
both legs only when both placements succeed; when exactly one succeeds,
cancel it and fail; when both fail, just fail.  `recordPosition` is called
without an entry price. -/
def executeArbitrageTrade (risk : RiskManagerState) (oe : OrderExecutorState)
    (arbOpp : ArbitrageOpportunity) (positionSizeUsd : ℚ) (env : ExecEnv)
    (now : Nat) : ExecOutcome :=
  let yesSizeUsd := positionSizeUsd * (1 / 2)
  let noSizeUsd := positionSizeUsd * (1 / 2)
  let yesShares := yesSizeUsd / arbOpp.yesPrice
  let noShares := noSizeUsd / arbOpp.noPrice
  let reqYes : PlaceReq :=
    { marketId := arbOpp.marketId, outcome := Outcome.YES, side := Side.buy,
      price := arbOpp.yesPrice, size := yesShares }
  let reqNo : PlaceReq :=
    { marketId := arbOpp.marketId, outcome := Outcome.NO, side := Side.buy,
      price := arbOpp.noPrice, size := noShares }
  let r1 := placeOrder oe arbOpp.marketId Outcome.YES Side.buy arbOpp.yesPrice
              yesShares env.yesApi
  let r2 := placeOrder r1.1 arbOpp.marketId Outcome.NO Side.buy arbOpp.noPrice
              noShares env.noApi
  match r1.2, r2.2 with
  | some _, some _ =>
      let risk1 := recordPosition risk arbOpp.marketId yesSizeUsd Outcome.YES
                     Side.buy none now
      let risk2 := recordPosition risk1 arbOpp.marketId noSizeUsd Outcome.NO
                     Side.buy none now
      { risk := risk2, orders := r2.1, success := true,
        placed := [reqYes, reqNo], cancelled := [] }
  | some y, none =>
      let c := cancelOrder r2.1 y.orderId env.cancelApi
      { risk := risk, orders := c.1, success := false,
        placed := [reqYes, reqNo], cancelled := [y.orderId] }
  | none, some n =>
      let c := cancelOrder r2.1 n.orderId env.cancelApi
      { risk := risk, orders := c.1, success := false,
        placed := [reqYes, reqNo], cancelled := [n.orderId] }
  | none, none =>
      { risk := risk, orders := r2.1, success := false,
        placed := [reqYes, reqNo], cancelled := [] }

/-- The opportunity that routes `executeCopyTrade` into the hedged branch:
present only when the wallet requires an arbitrage signal, the cache holds
an entry for the market, and that entry is of internal type. -/
def arbBranchOpp (wcfg : WalletConfig)
    (cache : List (String × ArbitrageOpportunity)) (marketId : String) :
    Option ArbitrageOpportunity :=
  match (if wcfg.requireArbSignal then getOpportunity cache marketId else none) with
  | some opp => if opp.opportunityType = OppType.internal then some opp else none
  | none => none

/-- `CopyTrader.executeCopyTrade`: hedged-pair execution when an internal
arbitrage opportunity backs the signal requirement, otherwise a single
directional order mirroring the observed trade, recorded in the risk
manager (without an entry price) on success. -/
def executeCopyTrade (wcfg : WalletConfig)
    (cache : List (String × ArbitrageOpportunity)) (risk : RiskManagerState)
    (oe : OrderExecutorState) (trade : WalletTrade) (positionSizeUsd : ℚ)
    (env : ExecEnv) (now : Nat) : ExecOutcome :=
  let shares := positionSizeUsd / trade.price
  match arbBranchOpp wcfg cache trade.marketId with
  | some opp => executeArbitrageTrade risk oe opp positionSizeUsd env now
  | none =>
      let req : PlaceReq :=
        { marketId := trade.marketId, outcome := trade.outcome, side := trade.side,
          price := trade.price, size := shares }
      let r := placeOrder oe trade.marketId trade.outcome trade.side trade.price
                 shares env.dirApi
      match r.2 with
      | some _ =>
          { risk := recordPosition risk trade.marketId positionSizeUsd trade.outcome
                      trade.side none now,
            orders := r.1, success := true, placed := [req], cancelled := [] }
      | none =>
          { risk := risk, orders := r.1, success := false,
            placed := [req], cancelled := [] }

/-- Result of `CopyTrader.processTrade`: the returned boolean plus the
updated component states and the execution trace. -/
structure ProcResult where
  copied : Bool
  ctState : CopyTraderState
  risk : RiskManagerState
  orders : OrderExecutorState
  placed : List PlaceReq
  cancelled : List String

/-- A skip outcome of `processTrade`: nothing executed, nothing changed. -/
def skipResult (ct : CopyTraderState) (risk : RiskManagerState)
    (oe : OrderExecutorState) : ProcResult :=
  { copied := false, ctState := ct, risk := risk, orders := oe,
    placed := [], cancelled := [] }

/-- Whether the configured market filter blocks a market
(`this.config.marketsFilter && !this.config.marketsFilter.includes(...)`). -/
def filterBlocks (wcfg : WalletConfig) (marketId : String) : Bool :=
  match wcfg.marketsFilter with
  | some f => !f.contains marketId
  | none => false

/-- `CopyTrader.processTrade`: dedup by composite key, wallet eligibility,
market filter, arbitrage-signal gate, sizing, risk admission, execution;
the key is marked copied only on a successful execution. -/
def processTrade (wcfg : WalletConfig) (acfg : ArbitrageConfig) (rcfg : RiskConfig)
    (cache : List (String × ArbitrageOpportunity)) (ct : CopyTraderState)
    (risk : RiskManagerState) (oe : OrderExecutorState) (trade : WalletTrade)
    (env : ExecEnv) (now : Nat) : ProcResult :=
  let key := tradeKey trade
  if ct.copiedTrades.contains key then skipResult ct risk oe
  else if !wcfg.enabled then skipResult ct risk oe
  else if filterBlocks wcfg trade.marketId then skipResult ct risk oe
  else if wcfg.requireArbSignal && !hasOpportunity acfg cache trade.marketId then
    skipResult ct risk oe
  else
    let positionSizeUsd := calculatePositionSize wcfg trade
    if positionSizeUsd ≤ 0 then skipResult ct risk oe
    else if !canOpenPosition rcfg risk trade.marketId positionSizeUsd then
      skipResult ct risk oe
    else
      let ex := executeCopyTrade wcfg cache risk oe trade positionSizeUsd env now
      if ex.success then
        { copied := true, ctState := { copiedTrades := key :: ct.copiedTrades },
          risk := ex.risk, orders := ex.orders,
          placed := ex.placed, cancelled := ex.cancelled }
      else
        { copied := false, ctState := ct, risk := ex.risk, orders := ex.orders,
          placed := ex.placed, cancelled := ex.cancelled }

end PolyBot

/-! # Shared lemmas -/

namespace PolyBot

theorem mapLookup_mapSet_self {α : Type} (l : List (String × α)) (k : String) (v : α) :
    mapLookup (mapSet l k v) k = some v := by
  induction l with
  | nil => simp [mapSet, mapLookup]
  | cons hd tl ih =>
    obtain ⟨k1, v1⟩ := hd
    by_cases h : k1 = k
    · simp [mapSet, mapLookup, h]
    · simp [mapSet, mapLookup, h, ih]

theorem mapLookup_mapSet_ne {α : Type} (l : List (String × α)) (k k1 : String) (v : α)
    (h : k1 ≠ k) : mapLookup (mapSet l k v) k1 = mapLookup l k1 := by
  have h2 : ¬ k = k1 := fun hh => h hh.symm
  induction l with
  | nil => simp [mapSet, mapLookup, h2]
  | cons hd tl ih =>
    obtain ⟨k2, v2⟩ := hd
    by_cases h3 : k2 = k
    · subst h3
      simp [mapSet, mapLookup, h2]
    · by_cases h4 : k2 = k1
      · subst h4
        simp [mapSet, mapLookup, h3]
      · simp [mapSet, mapLookup, h3, h4, ih]

theorem mapLookup_map {α β : Type} (f : α → β) (ps : List (String × α)) (k : String) :
    mapLookup (ps.map (fun kv => (kv.1, f kv.2))) k = (mapLookup ps k).map f := by
  induction ps with
  | nil => simp [mapLookup]
  | cons hd tl ih =>
    obtain ⟨k1, v⟩ := hd
    by_cases h : k1 = k <;> simp [mapLookup, h, ih]

theorem posSum_nil : posSum [] = 0 := rfl

theorem posSum_cons (p : Position) (l : List Position) :
    posSum (p :: l) = p.sizeUsd + posSum l := by
  simp [posSum]

theorem posSum_append (l1 l2 : List Position) :
    posSum (l1 ++ l2) = posSum l1 + posSum l2 := by
  simp [posSum]

theorem sumMarkets_cons (k : String) (l : List Position)
    (tl : List (String × List Position)) :
    sumMarkets ((k, l) :: tl) = posSum l + sumMarkets tl := by
  simp [sumMarkets]

theorem sumMarkets_insertPos (ps : List (String × List Position)) (m : String)
    (p : Position) : sumMarkets (insertPos ps m p) = sumMarkets ps + p.sizeUsd := by
  induction ps with
  | nil => simp [insertPos, sumMarkets, posSum]
  | cons hd tl ih =>
    obtain ⟨k, l⟩ := hd
    by_cases h : k = m
    · simp only [insertPos, if_pos h, sumMarkets_cons, posSum_append, posSum_cons,
        posSum_nil]
      ring
    · simp only [insertPos, if_neg h, sumMarkets_cons, ih]
      ring

theorem sumMarkets_mapSet (ps : List (String × List Position)) (m : String)
    (l l1 : List Position) (h : mapLookup ps m = some l) :
    sumMarkets (mapSet ps m l1) + posSum l = sumMarkets ps + posSum l1 := by
  induction ps with
  | nil => simp [mapLookup] at h
  | cons hd tl ih =>
    obtain ⟨k, v⟩ := hd
    by_cases hk : k = m
    · subst hk
      have hv : v = l := by simpa [mapLookup] using h
      subst hv
      have hset : mapSet ((k, v) :: tl) k l1 = (k, l1) :: tl := by
        simp [mapSet]
      rw [hset, sumMarkets_cons, sumMarkets_cons]
      ring
    · simp only [mapLookup, if_neg hk] at h
      simp only [mapSet, if_neg hk, sumMarkets_cons]
      have := ih h
      linarith

theorem removeFirstMatch_some (l : List Position) (o : Outcome)
    (l1 : List Position) (p : Position)
    (h : removeFirstMatch l o = (l1, some p)) :
    posSum l = posSum l1 + p.sizeUsd ∧ p ∈ l ∧
    p.outcome = o ∧ p.side = Side.buy := by
  induction l generalizing l1 with
  | nil => simp [removeFirstMatch] at h
  | cons q rest ih =>
    by_cases hq : q.outcome = o ∧ q.side = Side.buy
    · simp only [removeFirstMatch, if_pos hq, Prod.mk.injEq, Option.some.injEq] at h
      obtain ⟨h1, h2⟩ := h
      subst h1
      subst h2
      exact ⟨by rw [posSum_cons]; ring, List.mem_cons_self _ _, hq.1, hq.2⟩
    · simp only [removeFirstMatch, if_neg hq, Prod.mk.injEq] at h
      obtain ⟨h1, h2⟩ := h
      have hr : removeFirstMatch rest o = ((removeFirstMatch rest o).1, some p) := by
        rw [← h2]
      obtain ⟨hs, hm, ho, hside⟩ := ih _ hr
      subst h1
      refine ⟨?_, List.mem_cons_of_mem _ hm, ho, hside⟩
      rw [posSum_cons, posSum_cons, hs]
      ring

theorem exposureInvariant_record (s : RiskManagerState) (m : String) (sz : ℚ)
    (o : Outcome) (sd : Side) (e : Option ℚ) (ts : Nat)
    (h : exposureInvariant s) :
    exposureInvariant (recordPosition s m sz o sd e ts) := by
  unfold exposureInvariant recordPosition at *
  simp [sumMarkets_insertPos, h]

theorem exposureInvariant_close (s : RiskManagerState) (m : String) (o : Outcome)
    (e : Option ℚ) (h : exposureInvariant s) :
    exposureInvariant (closePosition s m o e).1 := by
  unfold exposureInvariant at *
  unfold closePosition
  cases hl : mapLookup s.positions m with
  | none => simpa using h
  | some l =>
    by_cases he : l.isEmpty
    · simp [he, h]
    · cases hr : removeFirstMatch l o with
      | mk l1 po =>
        cases po with
        | none => simp [he, hr, h]
        | some p =>
          obtain ⟨hsum, -, -, -⟩ := removeFirstMatch_some l o l1 p hr
          have hms := sumMarkets_mapSet s.positions m l l1 hl
          simp only [he, Bool.false_eq_true, if_false, hr]
          show s.totalExposure - p.sizeUsd = sumMarkets (mapSet s.positions m l1)
          linarith

theorem applyOps_invariant (d : JsDate) (ops : List RMOp) :
    exposureInvariant (applyOps (initialRiskState d) ops) := by
  have base : exposureInvariant (initialRiskState d) := by
    simp [exposureInvariant, initialRiskState, sumMarkets]
  suffices hgen : ∀ s, exposureInvariant s → exposureInvariant (applyOps s ops) from
    hgen _ base
  induction ops with
  | nil => intro s h; simpa [applyOps] using h
  | cons op rest ih =>
    intro s h
    have hstep : exposureInvariant (applyOp s op) := by
      cases op with
      | record m sz o sd e ts => exact exposureInvariant_record s m sz o sd e ts h
      | close m o e => exact exposureInvariant_close s m o e h
    simpa [applyOps, List.foldl_cons] using ih (applyOp s op) hstep

/-- The daily reset inside `getExposure` touches only `dailyPnl` and
`lastResetDate`; positions and the exposure counter pass through. -/
theorem getExposure_fields (cfg : RiskConfig) (s : RiskManagerState) (d : JsDate) :
    (getExposure cfg s d).2.totalExposureUsd = s.totalExposure ∧
    (getExposure cfg s d).2.marketExposures =
      s.positions.map (fun kv => (kv.1, posSum kv.2)) ∧
    (getExposure cfg s d).2.openPositions =
      (s.positions.map (fun kv => kv.2.length)).sum ∧
    (getExposure cfg s d).1.positions = s.positions ∧
    (getExposure cfg s d).1.totalExposure = s.totalExposure := by
  unfold getExposure
  by_cases hd : d.dayOfMonth ≠ s.lastResetDate.dayOfMonth <;> simp [hd]

end PolyBot

/-! # Claims -/

/-- C2: `canOpenPosition` returns true iff the daily-loss hard stop has not
been breached, the total-exposure ceiling admits the proposed size, and the
per-market ceiling admits it (checked in that order, first failing check
rejecting); whenever `dailyPnl ≤ -maxDailyLossUsd` it returns false
regardless of the proposed size, including size 0; exact equality with a
ceiling is allowed. -/
theorem claim2_canOpenPosition_characterization :
    (∀ (cfg : PolyBot.RiskConfig) (s : PolyBot.RiskManagerState)
       (marketId : String) (sizeUsd : ℚ),
       PolyBot.canOpenPosition cfg s marketId sizeUsd = true ↔
         (-cfg.maxDailyLossUsd < s.dailyPnl ∧
          s.totalExposure + sizeUsd ≤ cfg.maxTotalExposureUsd ∧
          PolyBot.marketExposure s marketId + sizeUsd ≤ cfg.maxPositionPerMarketUsd))
    ∧ (∀ (cfg : PolyBot.RiskConfig) (s : PolyBot.RiskManagerState)
         (marketId : String) (sizeUsd : ℚ),
         s.dailyPnl ≤ -cfg.maxDailyLossUsd →
         PolyBot.canOpenPosition cfg s marketId sizeUsd = false) := by
  constructor
  · intro cfg s marketId sizeUsd
    unfold PolyBot.canOpenPosition
    by_cases h1 : s.dailyPnl ≤ -cfg.maxDailyLossUsd
    · simp only [if_pos h1, Bool.false_eq_true, false_iff]
      rintro ⟨hc, -, -⟩
      exact absurd h1 (not_le.mpr hc)
    · rw [if_neg h1]
      by_cases h2 : cfg.maxTotalExposureUsd < s.totalExposure + sizeUsd
      · simp only [if_pos h2, Bool.false_eq_true, false_iff]
        rintro ⟨-, hc, -⟩
        exact absurd h2 (not_lt.mpr hc)
      · rw [if_neg h2]
        by_cases h3 : cfg.maxPositionPerMarketUsd <
            PolyBot.marketExposure s marketId + sizeUsd
        · simp only [if_pos h3, Bool.false_eq_true, false_iff]
          rintro ⟨-, -, hc⟩
          exact absurd h3 (not_lt.mpr hc)
        · simp only [if_neg h3, true_iff]
          exact ⟨not_le.mp h1, not_lt.mp h2, not_lt.mp h3⟩
  · intro cfg s marketId sizeUsd h
    unfold PolyBot.canOpenPosition
    simp [h]

/-- Witness for C2 at concrete inputs: with a fresh ledger all checks pass
for a $100 position, and with `dailyPnl = -500` against a $500 daily-loss
ceiling even size 0 is refused. -/
theorem claim2_canOpenPosition_witness :
    PolyBot.canOpenPosition
      { maxTotalExposureUsd := 10000, maxPositionPerMarketUsd := 2000,
        maxDailyLossUsd := 500, enableAutoHedge := true }
      (PolyBot.initialRiskState ⟨0, 1⟩) "m" 100 = true ∧
    PolyBot.canOpenPosition
      { maxTotalExposureUsd := 10000, maxPositionPerMarketUsd := 2000,
        maxDailyLossUsd := 500, enableAutoHedge := true }
      { positions := [], totalExposure := 0, dailyPnl := -500, lastResetDate := ⟨0, 1⟩ }
      "m" 0 = false := by
  refine ⟨?_, ?_⟩
  · exact (claim2_canOpenPosition_characterization.1 _ _ _ _).mpr
      (by norm_num [PolyBot.initialRiskState, PolyBot.marketExposure,
        PolyBot.mapLookup, PolyBot.posSum])
  · exact claim2_canOpenPosition_characterization.2 _ _ _ _ (by norm_num)

/-- C4: after any finite sequence of `recordPosition` / `closePosition`
calls starting from the empty ledger, the exposure snapshot reports a
total exposure equal to the sum of `sizeUsd` over all currently-open
positions, a per-market exposure equal to the sum restricted to that
market's open positions (absent markets reading as zero), and an
open-position count equal to the number of open positions. -/
theorem claim4_snapshot_matches_open_positions (cfg : PolyBot.RiskConfig)
    (d0 d : PolyBot.JsDate) (ops : List PolyBot.RMOp) :
    (PolyBot.getExposure cfg (PolyBot.applyOps (PolyBot.initialRiskState d0) ops) d).2.totalExposureUsd =
      PolyBot.sumMarkets (PolyBot.applyOps (PolyBot.initialRiskState d0) ops).positions ∧
    (∀ mid : String,
      (PolyBot.mapLookup
        (PolyBot.getExposure cfg (PolyBot.applyOps (PolyBot.initialRiskState d0) ops) d).2.marketExposures
        mid).getD 0 =
      PolyBot.posSum
        ((PolyBot.mapLookup (PolyBot.applyOps (PolyBot.initialRiskState d0) ops).positions mid).getD [])) ∧
    (PolyBot.getExposure cfg (PolyBot.applyOps (PolyBot.initialRiskState d0) ops) d).2.openPositions =
      PolyBot.countPositions (PolyBot.applyOps (PolyBot.initialRiskState d0) ops).positions := by
  set s := PolyBot.applyOps (PolyBot.initialRiskState d0) ops with hs
  obtain ⟨h1, h2, h3, -, -⟩ := PolyBot.getExposure_fields cfg s d
  refine ⟨?_, ?_, ?_⟩
  · rw [h1]
    exact PolyBot.applyOps_invariant d0 ops
  · intro mid
    rw [h2, PolyBot.mapLookup_map]
    cases PolyBot.mapLookup s.positions mid with
    | none => simp [PolyBot.posSum]
    | some l => simp
  · rw [h3]
    rfl

/-- C8 counterexample: the daily reset compares only `getDate()` (day of
month).  A ledger last reset on epoch day 4 (January 5, 1970), holding an
accumulated daily PnL of 7, snapshotted on epoch day 35 (February 5, 1970)
— a different calendar day with the same day of month — reports the stale
PnL of 7 instead of 0 and does not update the reset date. -/
theorem claim8_counterexample :
    (35 : Nat) ≠ (4 : Nat) ∧
    (PolyBot.getExposure
      { maxTotalExposureUsd := 10000, maxPositionPerMarketUsd := 2000,
        maxDailyLossUsd := 500, enableAutoHedge := true }
      { positions := [], totalExposure := 0, dailyPnl := 7,
        lastResetDate := ⟨4, 5⟩ }
      ⟨35, 5⟩).2.dailyPnlUsd = 7 ∧
    (PolyBot.getExposure
      { maxTotalExposureUsd := 10000, maxPositionPerMarketUsd := 2000,
        maxDailyLossUsd := 500, enableAutoHedge := true }
      { positions := [], totalExposure := 0, dailyPnl := 7,
        lastResetDate := ⟨4, 5⟩ }
      ⟨35, 5⟩).1.lastResetDate = ⟨4, 5⟩ := by
  refine ⟨by decide, ?_, ?_⟩ <;> simp [PolyBot.getExposure]

/-- C8 as amended: the lazy reset keys on the day of month returned by
`getDate()`, not the full calendar day — whenever `getExposure` runs with a
current day-of-month different from that of the last reset, the reported
daily PnL is 0 and the reset date is updated; with the same day-of-month
(even in a different month or year) the accumulated daily PnL is reported
and the state is untouched. -/
theorem claim8_daily_reset_by_day_of_month (cfg : PolyBot.RiskConfig)
    (s : PolyBot.RiskManagerState) (d : PolyBot.JsDate) :
    (d.dayOfMonth ≠ s.lastResetDate.dayOfMonth →
      (PolyBot.getExposure cfg s d).2.dailyPnlUsd = 0 ∧
      (PolyBot.getExposure cfg s d).1.lastResetDate = d ∧
      (PolyBot.getExposure cfg s d).1.dailyPnl = 0) ∧
    (d.dayOfMonth = s.lastResetDate.dayOfMonth →
      (PolyBot.getExposure cfg s d).2.dailyPnlUsd = s.dailyPnl ∧
      (PolyBot.getExposure cfg s d).1 = s) := by
  constructor
  · intro h
    simp [PolyBot.getExposure, h]
  · intro h
    simp [PolyBot.getExposure, h]

/-- Witness for the amended C8 at concrete inputs: a snapshot on the next
day (day-of-month 6 vs 5) resets the PnL to 0, and a snapshot a month later
on the same day-of-month keeps the accumulated PnL. -/
theorem claim8_daily_reset_witness :
    ((PolyBot.getExposure
        { maxTotalExposureUsd := 10000, maxPositionPerMarketUsd := 2000,
          maxDailyLossUsd := 500, enableAutoHedge := true }
        { positions := [], totalExposure := 0, dailyPnl := 7,
          lastResetDate := ⟨4, 5⟩ }
        ⟨5, 6⟩).2.dailyPnlUsd = 0) ∧
    ((PolyBot.getExposure
        { maxTotalExposureUsd := 10000, maxPositionPerMarketUsd := 2000,
          maxDailyLossUsd := 500, enableAutoHedge := true }
        { positions := [], totalExposure := 0, dailyPnl := 7,
          lastResetDate := ⟨4, 5⟩ }
        ⟨35, 5⟩).2.dailyPnlUsd = 7) := by
  constructor
  · exact ((claim8_daily_reset_by_day_of_month _ _ _).1 (by decide)).1
  · exact ((claim8_daily_reset_by_day_of_month _ _ _).2 (by decide)).1

namespace PolyBot

theorem mapLookup_insertPos (ps : List (String × List Position)) (m : String)
    (p : Position) :
    mapLookup (insertPos ps m p) m = some ((mapLookup ps m).getD [] ++ [p]) := by
  induction ps with
  | nil => simp [insertPos, mapLookup]
  | cons hd tl ih =>
    obtain ⟨k, l⟩ := hd
    by_cases h : k = m
    · subst h
      simp [insertPos, mapLookup]
    · simp [insertPos, mapLookup, h, ih]

theorem closePnl_entry_zero (p : Position) (e : Option ℚ) (h : p.entryPrice = 0) :
    closePnl p e = 0 := by
  cases e with
  | none => rfl
  | some e0 => simp [closePnl, h]

end PolyBot

/-- C9: the directional-mirror execution path records its position without
an entry price, which `recordPosition` defaults to 0; and closing any
position whose matching candidates all have entry price 0 realizes a PnL of
exactly 0 (or closes nothing) for any exit price, leaving the daily PnL
unchanged — so directional trades opened by the replication engine can
never move the daily realized PnL. -/
theorem claim9_directional_positions_have_zero_entry :
    (∀ (wcfg : PolyBot.WalletConfig)
       (cache : List (String × PolyBot.ArbitrageOpportunity))
       (risk : PolyBot.RiskManagerState) (oe : PolyBot.OrderExecutorState)
       (trade : PolyBot.WalletTrade) (sz : ℚ) (env : PolyBot.ExecEnv) (now : Nat)
       (oid : String),
       PolyBot.arbBranchOpp wcfg cache trade.marketId = none →
       env.dirApi = some oid →
       (PolyBot.executeCopyTrade wcfg cache risk oe trade sz env now).success = true ∧
       PolyBot.mapLookup
           (PolyBot.executeCopyTrade wcfg cache risk oe trade sz env now).risk.positions
           trade.marketId =
         some (((PolyBot.mapLookup risk.positions trade.marketId).getD []) ++
           [{ marketId := trade.marketId, outcome := trade.outcome,
              side := trade.side, sizeUsd := sz, entryPrice := 0,
              timestamp := now }])) ∧
    (∀ (s : PolyBot.RiskManagerState) (mid : String) (o : PolyBot.Outcome)
       (e : Option ℚ),
       (∀ p ∈ (PolyBot.mapLookup s.positions mid).getD [],
          p.outcome = o → p.side = PolyBot.Side.buy → p.entryPrice = 0) →
       ((PolyBot.closePosition s mid o e).2 = none ∨
        (PolyBot.closePosition s mid o e).2 = some 0) ∧
       (PolyBot.closePosition s mid o e).1.dailyPnl = s.dailyPnl) := by
  constructor
  · intro wcfg cache risk oe trade sz env now oid harb henv
    unfold PolyBot.executeCopyTrade
    rw [harb]
    simp only [henv, PolyBot.placeOrder]
    refine ⟨by trivial, ?_⟩
    simp [PolyBot.recordPosition, PolyBot.mapLookup_insertPos]
  · intro s mid o e hz
    unfold PolyBot.closePosition
    cases hl : PolyBot.mapLookup s.positions mid with
    | none => exact ⟨Or.inl rfl, rfl⟩
    | some l =>
      by_cases he : l.isEmpty
      · simp [he]
      · cases hr : PolyBot.removeFirstMatch l o with
        | mk l1 po =>
          cases po with
          | none => simp [he, hr]
          | some p =>
            obtain ⟨-, hmem, ho, hside⟩ := PolyBot.removeFirstMatch_some l o l1 p hr
            have hp0 : p.entryPrice = 0 := by
              apply hz
              · rw [hl]; exact hmem
              · exact ho
              · exact hside
            have hpnl := PolyBot.closePnl_entry_zero p e hp0
            simp [he, hr, hpnl]

/-- Witness for C9: a concrete directional copy of a $20 mirror of a YES
buy (placement id `o1`) records entry price 0, and closing it afterwards
at exit price 0.9 realizes exactly 0 PnL. -/
theorem claim9_directional_witness :
    (PolyBot.executeCopyTrade
      { address := "w", name := "n", enabled := true, minWinRate := 7/10,
        maxPositionSizeUsd := 2000, positionSizeMultiplier := 1/100,
        marketsFilter := none, requireArbSignal := false }
      [] (PolyBot.initialRiskState ⟨0, 1⟩) ⟨[]⟩
      { walletAddress := "w", walletName := "n", marketId := "m",
        marketQuestion := "q", outcome := PolyBot.Outcome.YES,
        side := PolyBot.Side.buy, price := 1/2, size := 40, sizeUsd := 20,
        timestamp := 0, txHash := none }
      20 ⟨none, none, some "o1", fun _ => false⟩ 0).success = true ∧
    (PolyBot.closePosition
      { positions := [("m", [{ marketId := "m", outcome := PolyBot.Outcome.YES,
                               side := PolyBot.Side.buy, sizeUsd := 20,
                               entryPrice := 0, timestamp := 0 }])],
        totalExposure := 20, dailyPnl := 0, lastResetDate := ⟨0, 1⟩ }
      "m" PolyBot.Outcome.YES (some (9/10))).2 = some 0 := by
  constructor
  · exact (claim9_directional_positions_have_zero_entry.1 _ _ _ _ _ _ _ _ "o1"
      (by decide) rfl).1
  · have h := (claim9_directional_positions_have_zero_entry.2
      { positions := [("m", [{ marketId := "m", outcome := PolyBot.Outcome.YES,
                               side := PolyBot.Side.buy, sizeUsd := 20,
                               entryPrice := 0, timestamp := 0 }])],
        totalExposure := 20, dailyPnl := 0, lastResetDate := ⟨0, 1⟩ }
      "m" PolyBot.Outcome.YES (some (9/10)) (by decide)).1
    rcases h with h | h
    · exact absurd h (by decide)
    · exact h

/-- C1: whenever exactly one of the two hedged-leg placements succeeds,
`executeArbitrageTrade` cancels the successful leg's order (the cancel is
issued for exactly that order id, and on a successful cancel API call the
tracked order is marked cancelled), returns failure, and leaves the risk
ledger completely unchanged — no `recordPosition` occurs, so total
exposure, per-market exposure and the position lists are untouched. -/
theorem claim1_partial_failure_rollback (risk : PolyBot.RiskManagerState)
    (oe : PolyBot.OrderExecutorState) (arbOpp : PolyBot.ArbitrageOpportunity)
    (sz : ℚ) (env : PolyBot.ExecEnv) (now : Nat) (oid : String)
    (h : (env.yesApi = some oid ∧ env.noApi = none) ∨
         (env.yesApi = none ∧ env.noApi = some oid)) :
    (PolyBot.executeArbitrageTrade risk oe arbOpp sz env now).success = false ∧
    (PolyBot.executeArbitrageTrade risk oe arbOpp sz env now).risk = risk ∧
    (PolyBot.executeArbitrageTrade risk oe arbOpp sz env now).cancelled = [oid] ∧
    (env.cancelApi oid = true →
      (PolyBot.mapLookup
         (PolyBot.executeArbitrageTrade risk oe arbOpp sz env now).orders.activeOrders
         oid).map (fun o => o.status) = some "cancelled") := by
  rcases h with ⟨hy, hn⟩ | ⟨hy, hn⟩ <;>
  · unfold PolyBot.executeArbitrageTrade
    simp only [hy, hn, PolyBot.placeOrder]
    refine ⟨by trivial, by trivial, by trivial, ?_⟩
    intro hc
    simp [PolyBot.cancelOrder, PolyBot.mapLookup_mapSet_self, hc]

/-- Witness for C1: YES leg placed with id `y1`, NO leg placement fails,
cancel API succeeds — the action fails, the ledger state is returned
unchanged, and order `y1` ends up cancelled. -/
theorem claim1_partial_failure_witness :
    (PolyBot.executeArbitrageTrade (PolyBot.initialRiskState ⟨0, 1⟩) ⟨[]⟩
      { marketId := "m", marketQuestion := "q",
        opportunityType := PolyBot.OppType.internal, yesPrice := 48/100,
        noPrice := 49/100, totalCost := 97/100, profitPct := 203/9797,
        profitUsd := 203/9797, liquidityYes := 2400, liquidityNo := 2450,
        timestamp := 0 }
      20 ⟨some "y1", none, none, fun _ => true⟩ 0).success = false ∧
    (PolyBot.executeArbitrageTrade (PolyBot.initialRiskState ⟨0, 1⟩) ⟨[]⟩
      { marketId := "m", marketQuestion := "q",
        opportunityType := PolyBot.OppType.internal, yesPrice := 48/100,
        noPrice := 49/100, totalCost := 97/100, profitPct := 203/9797,
        profitUsd := 203/9797, liquidityYes := 2400, liquidityNo := 2450,
        timestamp := 0 }
      20 ⟨some "y1", none, none, fun _ => true⟩ 0).risk =
      PolyBot.initialRiskState ⟨0, 1⟩ ∧
    (PolyBot.executeArbitrageTrade (PolyBot.initialRiskState ⟨0, 1⟩) ⟨[]⟩
      { marketId := "m", marketQuestion := "q",
        opportunityType := PolyBot.OppType.internal, yesPrice := 48/100,
        noPrice := 49/100, totalCost := 97/100, profitPct := 203/9797,
        profitUsd := 203/9797, liquidityYes := 2400, liquidityNo := 2450,
        timestamp := 0 }
      20 ⟨some "y1", none, none, fun _ => true⟩ 0).cancelled = ["y1"] := by
  have h := claim1_partial_failure_rollback (PolyBot.initialRiskState ⟨0, 1⟩) ⟨[]⟩
    { marketId := "m", marketQuestion := "q",
      opportunityType := PolyBot.OppType.internal, yesPrice := 48/100,
      noPrice := 49/100, totalCost := 97/100, profitPct := 203/9797,
      profitUsd := 203/9797, liquidityYes := 2400, liquidityNo := 2450,
      timestamp := 0 }
    20 ⟨some "y1", none, none, fun _ => true⟩ 0 "y1" (Or.inl ⟨rfl, rfl⟩)
  exact ⟨h.1, h.2.1, h.2.2.1⟩

namespace PolyBot

theorem isValid_iff (cfg : ArbitrageConfig) (opp : ArbitrageOpportunity) :
    isValid cfg opp = true ↔
      (cfg.minArbProfitPct ≤ opp.profitPct ∧ opp.profitPct ≤ cfg.maxArbProfitPct ∧
       cfg.minLiquidityUsd ≤ opp.liquidityYes ∧
       cfg.minLiquidityUsd ≤ opp.liquidityNo) := by
  unfold isValid
  by_cases h1 : opp.profitPct < cfg.minArbProfitPct
  · simp only [if_pos h1, Bool.false_eq_true, false_iff]
    rintro ⟨hc, -, -, -⟩
    exact absurd h1 (not_lt.mpr hc)
  · rw [if_neg h1]
    by_cases h2 : cfg.maxArbProfitPct < opp.profitPct
    · simp only [if_pos h2, Bool.false_eq_true, false_iff]
      rintro ⟨-, hc, -, -⟩
      exact absurd h2 (not_lt.mpr hc)
    · rw [if_neg h2]
      by_cases h3 : opp.liquidityYes < cfg.minLiquidityUsd
      · simp only [if_pos h3, Bool.false_eq_true, false_iff]
        rintro ⟨-, -, hc, -⟩
        exact absurd h3 (not_lt.mpr hc)
      · rw [if_neg h3]
        by_cases h4 : opp.liquidityNo < cfg.minLiquidityUsd
        · simp only [if_pos h4, Bool.false_eq_true, false_iff]
          rintro ⟨-, -, -, hc⟩
          exact absurd h4 (not_lt.mpr hc)
        · simp only [if_neg h4, true_iff]
          exact ⟨not_lt.mp h1, not_lt.mp h2, not_lt.mp h3, not_lt.mp h4⟩

/-- With internal detection enabled, `scanMarket` on a fetched book is the
internal detection filtered by validity (the cross-platform stub never
contributes). -/
theorem scanMarket_internal (cfg : ArbitrageConfig) (mid : String)
    (book : OrderBook) (now : Nat) (h : cfg.internalArbEnabled = true) :
    scanMarket cfg mid (some book) now =
      (match detectInternalArbitrage mid book now with
       | some opp => if isValid cfg opp then some opp else none
       | none => none) := by
  unfold scanMarket
  rw [h]
  cases hdet : detectInternalArbitrage mid book now with
  | some opp =>
    by_cases hv : isValid cfg opp
    · simp [hdet, hv]
    · simp only [hdet, hv, Bool.false_eq_true, if_false]
      cases cfg.crossPlatformEnabled <;> simp [detectCrossPlatformArbitrage]
  | none =>
    simp only [hdet]
    cases cfg.crossPlatformEnabled <;> simp [detectCrossPlatformArbitrage]

theorem detectInternal_marketId (mid : String) (book : OrderBook) (now : Nat)
    (opp : ArbitrageOpportunity)
    (h : detectInternalArbitrage mid book now = some opp) : opp.marketId = mid := by
  unfold detectInternalArbitrage at h
  cases hy : getBestAsk book.yesAsks with
  | none => rw [hy] at h; simp at h
  | some ya =>
    cases hn : getBestAsk book.noAsks with
    | none => rw [hy, hn] at h; simp at h
    | some na =>
      rw [hy, hn] at h
      by_cases hc : (ya.price + na.price) * (101 / 100) < 99 / 100
      · simp only [if_pos hc, Option.some.injEq] at h
        rw [← h]
      · simp only [if_neg hc] at h
        exact Option.noConfusion h

theorem scanMarket_marketId (cfg : ArbitrageConfig) (mid : String)
    (ob : Option OrderBook) (now : Nat) (opp : ArbitrageOpportunity)
    (h : scanMarket cfg mid ob now = some opp) : opp.marketId = mid := by
  cases ob with
  | none => simp [scanMarket] at h
  | some book =>
    by_cases hi : cfg.internalArbEnabled = true
    · rw [scanMarket_internal cfg mid book now hi] at h
      cases hdet : detectInternalArbitrage mid book now with
      | some o =>
        rw [hdet] at h
        by_cases hv : isValid cfg o
        · simp only [if_pos hv, Option.some.injEq] at h
          rw [← h]
          exact detectInternal_marketId mid book now o hdet
        · simp [hv] at h
      | none => simp [hdet] at h
    · have hi2 : cfg.internalArbEnabled = false := by
        cases hb : cfg.internalArbEnabled
        · rfl
        · exact absurd hb hi
      unfold scanMarket at h
      rw [hi2] at h
      simp only [Bool.false_eq_true, if_false, detectCrossPlatformArbitrage] at h
      cases cfg.crossPlatformEnabled <;> simp at h

end PolyBot

/-- C5: with internal detection enabled and best asks present on both
sides, `scanMarket` returns an opportunity iff the fee-adjusted cost
`(askYES + askNO) * 1.01` is below 0.99, the profit fraction
`(1 - feeAdjustedCost) / feeAdjustedCost` lies within the configured
bounds, and both legs' liquidity (ask price times ask depth) is at least
the configured minimum; in particular askYES=0.48, askNO=0.49 with depth
5000 on both sides yields an opportunity with fee-adjusted cost 0.9797
and profit fraction 203/9797 ≈ 0.0207, while askYES=0.52, askNO=0.50
yields none. -/
theorem claim5_internal_arbitrage_gate :
    (∀ (cfg : PolyBot.ArbitrageConfig) (mid : String) (ob : PolyBot.OrderBook)
       (now : Nat) (ya na : PolyBot.AskLevel),
       cfg.internalArbEnabled = true →
       PolyBot.getBestAsk ob.yesAsks = some ya →
       PolyBot.getBestAsk ob.noAsks = some na →
       ((PolyBot.scanMarket cfg mid (some ob) now).isSome ↔
         ((ya.price + na.price) * (101 / 100) < 99 / 100 ∧
          cfg.minArbProfitPct ≤
            (1 - (ya.price + na.price) * (101 / 100)) /
              ((ya.price + na.price) * (101 / 100)) ∧
          (1 - (ya.price + na.price) * (101 / 100)) /
              ((ya.price + na.price) * (101 / 100)) ≤ cfg.maxArbProfitPct ∧
          cfg.minLiquidityUsd ≤ ya.size * ya.price ∧
          cfg.minLiquidityUsd ≤ na.size * na.price))) ∧
    PolyBot.scanMarket
      { minArbProfitPct := 1/100, maxArbProfitPct := 5/100,
        internalArbEnabled := true, crossPlatformEnabled := false,
        minLiquidityUsd := 1000, maxSlippagePct := 2/100 }
      "m1"
      (some { marketQuestion := "q",
              yesAsks := [{ price := 48/100, size := 5000 }],
              noAsks := [{ price := 49/100, size := 5000 }] })
      7 =
      some { marketId := "m1", marketQuestion := "q",
             opportunityType := PolyBot.OppType.internal,
             yesPrice := 48/100, noPrice := 49/100, totalCost := 97/100,
             profitPct := 203/9797, profitUsd := 203/9797,
             liquidityYes := 2400, liquidityNo := 2450, timestamp := 7 } ∧
    PolyBot.scanMarket
      { minArbProfitPct := 1/100, maxArbProfitPct := 5/100,
        internalArbEnabled := true, crossPlatformEnabled := false,
        minLiquidityUsd := 1000, maxSlippagePct := 2/100 }
      "m2"
      (some { marketQuestion := "q",
              yesAsks := [{ price := 52/100, size := 5000 }],
              noAsks := [{ price := 50/100, size := 5000 }] })
      7 = none := by
  refine ⟨?_, ?_, ?_⟩
  · intro cfg mid ob now ya na hi hy hn
    rw [PolyBot.scanMarket_internal cfg mid ob now hi]
    unfold PolyBot.detectInternalArbitrage
    rw [hy, hn]
    by_cases hfee : (ya.price + na.price) * (101 / 100) < 99 / 100
    · simp only [if_pos hfee]
      by_cases hv : PolyBot.isValid cfg
          { marketId := mid, marketQuestion := ob.marketQuestion,
            opportunityType := PolyBot.OppType.internal,
            yesPrice := ya.price, noPrice := na.price,
            totalCost := ya.price + na.price,
            profitPct := (1 - (ya.price + na.price) * (101 / 100)) /
              ((ya.price + na.price) * (101 / 100)),
            profitUsd := ((1 - (ya.price + na.price) * (101 / 100)) /
              ((ya.price + na.price) * (101 / 100))) * 1,
            liquidityYes := ya.size * ya.price,
            liquidityNo := na.size * na.price, timestamp := now } = true
      · rw [if_pos hv]
        have hv2 := (PolyBot.isValid_iff _ _).mp hv
        simp only [Option.isSome_some, true_iff]
        exact ⟨hfee, hv2.1, hv2.2.1, hv2.2.2.1, hv2.2.2.2⟩
      · rw [if_neg hv]
        simp only [Option.isSome_none, Bool.false_eq_true, false_iff]
        rintro ⟨-, h1, h2, h3, h4⟩
        exact hv ((PolyBot.isValid_iff _ _).mpr ⟨h1, h2, h3, h4⟩)
    · simp only [if_neg hfee, Option.isSome_none, Bool.false_eq_true, false_iff]
      rintro ⟨hc, -⟩
      exact hfee hc
  · rw [PolyBot.scanMarket_internal _ _ _ _ rfl]
    unfold PolyBot.detectInternalArbitrage
    dsimp only [PolyBot.getBestAsk, List.foldl]
    rw [if_pos (show ((48:ℚ)/100 + 49/100) * (101/100) < 99/100 by norm_num)]
    dsimp only
    rw [if_pos ((PolyBot.isValid_iff _ _).mpr (by norm_num))]
    simp only [Option.some.injEq, PolyBot.ArbitrageOpportunity.mk.injEq]
    norm_num
  · rw [PolyBot.scanMarket_internal _ _ _ _ rfl]
    unfold PolyBot.detectInternalArbitrage
    dsimp only [PolyBot.getBestAsk, List.foldl]
    rw [if_neg (show ¬ ((52:ℚ)/100 + 50/100) * (101/100) < 99/100 by norm_num)]

/-- Witness for C5: the parametric characterization applied to the
0.48/0.49 book with a 1%-5% profit window and $1000 liquidity floor
agrees with the direct evaluation: an opportunity is present. -/
theorem claim5_internal_arbitrage_witness :
    (PolyBot.scanMarket
      { minArbProfitPct := 1/100, maxArbProfitPct := 5/100,
        internalArbEnabled := true, crossPlatformEnabled := false,
        minLiquidityUsd := 1000, maxSlippagePct := 2/100 }
      "m1"
      (some { marketQuestion := "q",
              yesAsks := [{ price := 48/100, size := 5000 }],
              noAsks := [{ price := 49/100, size := 5000 }] })
      7).isSome = true := by
  rw [claim5_internal_arbitrage_gate.1
    { minArbProfitPct := 1/100, maxArbProfitPct := 5/100,
      internalArbEnabled := true, crossPlatformEnabled := false,
      minLiquidityUsd := 1000, maxSlippagePct := 2/100 }
    "m1"
    { marketQuestion := "q",
      yesAsks := [{ price := 48/100, size := 5000 }],
      noAsks := [{ price := 49/100, size := 5000 }] }
    7 { price := 48/100, size := 5000 } { price := 49/100, size := 5000 }
    rfl rfl rfl]
  norm_num

namespace PolyBot

theorem foldl_mapSet_lookup_skip (opps : List ArbitrageOpportunity)
    (cache : List (String × ArbitrageOpportunity)) (m : String)
    (h : ∀ o ∈ opps, o.marketId ≠ m) :
    mapLookup (opps.foldl (fun c o => mapSet c o.marketId o) cache) m =
      mapLookup cache m := by
  induction opps generalizing cache with
  | nil => rfl
  | cons o rest ih =>
    rw [List.foldl_cons]
    rw [ih _ (fun x hx => h x (List.mem_cons_of_mem _ hx))]
    exact mapLookup_mapSet_ne cache o.marketId m o
      (fun he => h o (List.mem_cons_self _ _) (he.symm))

theorem foldl_mapSet_lookup_write (opps : List ArbitrageOpportunity)
    (cache : List (String × ArbitrageOpportunity)) (m : String)
    (opp : ArbitrageOpportunity)
    (hall : ∀ o ∈ opps, o.marketId = m → o = opp)
    (hex : ∃ o ∈ opps, o.marketId = m) :
    mapLookup (opps.foldl (fun c o => mapSet c o.marketId o) cache) m = some opp := by
  induction opps generalizing cache with
  | nil =>
    rcases hex with ⟨o, ho, -⟩
    exact absurd ho (List.not_mem_nil o)
  | cons o rest ih =>
    rw [List.foldl_cons]
    by_cases hrest : ∃ x ∈ rest, x.marketId = m
    · exact ih _ (fun x hx hxm => hall x (List.mem_cons_of_mem _ hx) hxm) hrest
    · have hnone : ∀ x ∈ rest, x.marketId ≠ m := by
        intro x hx hxm
        exact hrest ⟨x, hx, hxm⟩
      rw [foldl_mapSet_lookup_skip rest _ m hnone]
      rcases hex with ⟨x, hx, hxm⟩
      rcases List.mem_cons.mp hx with rfl | hx2
      · have hom : x.marketId = m := hxm
        have hxo : x = opp := hall x (List.mem_cons_self _ _) hxm
        rw [hom, hxo]
        exact mapLookup_mapSet_self cache m opp
      · exact absurd ⟨x, hx2, hxm⟩ hrest

end PolyBot

/-- C3 counterexample: a scan of market `M` that yields no opportunity
(here the order-book fetch fails) does NOT replace the prior cache entry
for `M` — `scanMarkets` writes only collected opportunities, so the stale
entry survives, contradicting the claim that an absent scan result
replaces any prior entry. -/
theorem claim3_counterexample :
    PolyBot.scanMarket
      { minArbProfitPct := 1/100, maxArbProfitPct := 5/100,
        internalArbEnabled := true, crossPlatformEnabled := false,
        minLiquidityUsd := 1000, maxSlippagePct := 2/100 }
      "M" none 0 = none ∧
    (PolyBot.scanMarkets
      { minArbProfitPct := 1/100, maxArbProfitPct := 5/100,
        internalArbEnabled := true, crossPlatformEnabled := false,
        minLiquidityUsd := 1000, maxSlippagePct := 2/100 }
      [("M", { marketId := "M", marketQuestion := "q",
               opportunityType := PolyBot.OppType.internal,
               yesPrice := 48/100, noPrice := 49/100, totalCost := 97/100,
               profitPct := 203/9797, profitUsd := 203/9797,
               liquidityYes := 2400, liquidityNo := 2450, timestamp := 0 })]
      (fun _ => none) ["M"] 5).1 =
      [("M", { marketId := "M", marketQuestion := "q",
               opportunityType := PolyBot.OppType.internal,
               yesPrice := 48/100, noPrice := 49/100, totalCost := 97/100,
               profitPct := 203/9797, profitUsd := 203/9797,
               liquidityYes := 2400, liquidityNo := 2450, timestamp := 0 })] :=
  ⟨rfl, rfl⟩

/-- C3 as amended: a scan that yields a valid opportunity for a market
replaces any prior cache entry for that market id (no merge), but a scan
yielding no valid opportunity (or failing to fetch) writes nothing — any
prior (stale) entry for that market is left in place until a later scan
produces a valid opportunity. -/
theorem claim3_cache_replacement (cfg : PolyBot.ArbitrageConfig)
    (cache : List (String × PolyBot.ArbitrageOpportunity))
    (books : String → Option PolyBot.OrderBook) (mids : List String)
    (now : Nat) (m : String) :
    (PolyBot.scanMarket cfg m (books m) now = none →
      PolyBot.mapLookup (PolyBot.scanMarkets cfg cache books mids now).1 m =
        PolyBot.mapLookup cache m) ∧
    (∀ opp, PolyBot.scanMarket cfg m (books m) now = some opp → m ∈ mids →
      PolyBot.mapLookup (PolyBot.scanMarkets cfg cache books mids now).1 m =
        some opp) := by
  constructor
  · intro hnone
    unfold PolyBot.scanMarkets
    apply PolyBot.foldl_mapSet_lookup_skip
    intro o ho
    rcases List.mem_filterMap.mp ho with ⟨mid, -, hscan⟩
    have hom : o.marketId = mid := PolyBot.scanMarket_marketId cfg mid _ now o hscan
    intro hm
    rw [hom] at hm
    subst hm
    rw [hnone] at hscan
    exact Option.noConfusion hscan
  · intro opp hscan hmem
    unfold PolyBot.scanMarkets
    apply PolyBot.foldl_mapSet_lookup_write
    · intro o ho hom
      rcases List.mem_filterMap.mp ho with ⟨mid, -, hscan2⟩
      have hom2 : o.marketId = mid := PolyBot.scanMarket_marketId cfg mid _ now o hscan2
      rw [hom2] at hom
      subst hom
      rw [hscan] at hscan2
      exact (Option.some.injEq _ _ ▸ hscan2).symm
    · refine ⟨opp, List.mem_filterMap.mpr ⟨m, hmem, hscan⟩, ?_⟩
      exact PolyBot.scanMarket_marketId cfg m _ now opp hscan

/-- Witness for the amended C3: scanning `M` with a failed fetch keeps the
stale entry, and scanning `M2` with a 0.48/0.49 book installs the fresh
opportunity. -/
theorem claim3_cache_replacement_witness :
    PolyBot.mapLookup
      (PolyBot.scanMarkets
        { minArbProfitPct := 1/100, maxArbProfitPct := 5/100,
          internalArbEnabled := true, crossPlatformEnabled := false,
          minLiquidityUsd := 1000, maxSlippagePct := 2/100 }
        [("M", { marketId := "M", marketQuestion := "q",
                 opportunityType := PolyBot.OppType.internal,
                 yesPrice := 48/100, noPrice := 49/100, totalCost := 97/100,
                 profitPct := 203/9797, profitUsd := 203/9797,
                 liquidityYes := 2400, liquidityNo := 2450, timestamp := 0 })]
        (fun _ => none) ["M"] 5).1 "M" =
      some { marketId := "M", marketQuestion := "q",
             opportunityType := PolyBot.OppType.internal,
             yesPrice := 48/100, noPrice := 49/100, totalCost := 97/100,
             profitPct := 203/9797, profitUsd := 203/9797,
             liquidityYes := 2400, liquidityNo := 2450, timestamp := 0 } := by
  have h := (claim3_cache_replacement
    { minArbProfitPct := 1/100, maxArbProfitPct := 5/100,
      internalArbEnabled := true, crossPlatformEnabled := false,
      minLiquidityUsd := 1000, maxSlippagePct := 2/100 }
    [("M", { marketId := "M", marketQuestion := "q",
             opportunityType := PolyBot.OppType.internal,
             yesPrice := 48/100, noPrice := 49/100, totalCost := 97/100,
             profitPct := 203/9797, profitUsd := 203/9797,
             liquidityYes := 2400, liquidityNo := 2450, timestamp := 0 })]
    (fun _ => none) ["M"] 5 "M").1 rfl
  rw [h]
  rfl

/-- C6: the mirrored size is the observed quote size scaled and capped,
floored to zero below the $10 minimum; a zero size makes `processTrade`
return false without attempting any order; with multiplier 0.01 and cap
2000, a $50,000 trade sizes to $500 and a $500 trade sizes to 0. -/
theorem claim6_position_sizing :
    (∀ (cfg : PolyBot.WalletConfig) (t : PolyBot.WalletTrade),
       (10 ≤ min (t.sizeUsd * cfg.positionSizeMultiplier) cfg.maxPositionSizeUsd →
         PolyBot.calculatePositionSize cfg t =
           min (t.sizeUsd * cfg.positionSizeMultiplier) cfg.maxPositionSizeUsd) ∧
       (min (t.sizeUsd * cfg.positionSizeMultiplier) cfg.maxPositionSizeUsd < 10 →
         PolyBot.calculatePositionSize cfg t = 0)) ∧
    (∀ (wcfg : PolyBot.WalletConfig) (acfg : PolyBot.ArbitrageConfig)
       (rcfg : PolyBot.RiskConfig)
       (cache : List (String × PolyBot.ArbitrageOpportunity))
       (ct : PolyBot.CopyTraderState) (risk : PolyBot.RiskManagerState)
       (oe : PolyBot.OrderExecutorState) (t : PolyBot.WalletTrade)
       (env : PolyBot.ExecEnv) (now : Nat),
       PolyBot.calculatePositionSize wcfg t = 0 →
       (PolyBot.processTrade wcfg acfg rcfg cache ct risk oe t env now).copied =
         false ∧
       (PolyBot.processTrade wcfg acfg rcfg cache ct risk oe t env now).placed =
         []) ∧
    PolyBot.calculatePositionSize
      { address := "w", name := "n", enabled := true, minWinRate := 7/10,
        maxPositionSizeUsd := 2000, positionSizeMultiplier := 1/100,
        marketsFilter := none, requireArbSignal := true }
      { walletAddress := "w", walletName := "n", marketId := "m",
        marketQuestion := "q", outcome := PolyBot.Outcome.YES,
        side := PolyBot.Side.buy, price := 1/2, size := 100000,
        sizeUsd := 50000, timestamp := 0, txHash := none } = 500 ∧
    PolyBot.calculatePositionSize
      { address := "w", name := "n", enabled := true, minWinRate := 7/10,
        maxPositionSizeUsd := 2000, positionSizeMultiplier := 1/100,
        marketsFilter := none, requireArbSignal := true }
      { walletAddress := "w", walletName := "n", marketId := "m",
        marketQuestion := "q", outcome := PolyBot.Outcome.YES,
        side := PolyBot.Side.buy, price := 1/2, size := 1000,
        sizeUsd := 500, timestamp := 0, txHash := none } = 0 := by
  refine ⟨?_, ?_, ?_, ?_⟩
  · intro cfg t
    constructor
    · intro h
      simp only [PolyBot.calculatePositionSize]
      rw [if_neg (not_lt.mpr h)]
    · intro h
      simp only [PolyBot.calculatePositionSize]
      rw [if_pos h]
  · intro wcfg acfg rcfg cache ct risk oe t env now h0
    have hres : PolyBot.processTrade wcfg acfg rcfg cache ct risk oe t env now =
        PolyBot.skipResult ct risk oe := by
      simp only [PolyBot.processTrade, h0]
      split
      · rfl
      · split
        · rfl
        · split
          · rfl
          · split
            · rfl
            · rw [if_pos (le_refl (0 : ℚ))]
    rw [hres]
    exact ⟨rfl, rfl⟩
  · norm_num [PolyBot.calculatePositionSize, min_def]
  · norm_num [PolyBot.calculatePositionSize, min_def]

/-- Witness for C6: the $50,000 observed trade sizes to $500 (the capped
scaled value, above the floor), and a trade sized to zero is skipped with
no order attempted. -/
theorem claim6_position_sizing_witness :
    PolyBot.calculatePositionSize
      { address := "w", name := "n", enabled := true, minWinRate := 7/10,
        maxPositionSizeUsd := 2000, positionSizeMultiplier := 1/100,
        marketsFilter := none, requireArbSignal := true }
      { walletAddress := "w", walletName := "n", marketId := "m",
        marketQuestion := "q", outcome := PolyBot.Outcome.YES,
        side := PolyBot.Side.buy, price := 1/2, size := 100000,
        sizeUsd := 50000, timestamp := 0, txHash := none } =
      min ((50000 : ℚ) * (1/100)) 2000 ∧
    (PolyBot.processTrade
      { address := "w", name := "n", enabled := true, minWinRate := 7/10,
        maxPositionSizeUsd := 2000, positionSizeMultiplier := 1/100,
        marketsFilter := none, requireArbSignal := false }
      { minArbProfitPct := 1/100, maxArbProfitPct := 5/100,
        internalArbEnabled := true, crossPlatformEnabled := false,
        minLiquidityUsd := 1000, maxSlippagePct := 2/100 }
      { maxTotalExposureUsd := 10000, maxPositionPerMarketUsd := 2000,
        maxDailyLossUsd := 500, enableAutoHedge := true }
      [] ⟨[]⟩ (PolyBot.initialRiskState ⟨0, 1⟩) ⟨[]⟩
      { walletAddress := "w", walletName := "n", marketId := "m",
        marketQuestion := "q", outcome := PolyBot.Outcome.YES,
        side := PolyBot.Side.buy, price := 1/2, size := 1000,
        sizeUsd := 500, timestamp := 0, txHash := none }
      ⟨none, none, some "o1", fun _ => false⟩ 0).placed = [] := by
  constructor
  · exact (claim6_position_sizing.1 _ _).1 (by norm_num [min_def])
  · exact ((claim6_position_sizing.2.1 _ _ _ _ _ _ _ _ _ 0
      (by norm_num [PolyBot.calculatePositionSize, min_def]))).2

/-- C7: a trade without a transaction hash that shares market, outcome and
side with a previously emitted trade for the wallet and whose timestamp is
within 5000 ms of it is classified as a duplicate by `isNewTrade` and is
never emitted: no history append, no watermark advance, no emission. -/
theorem claim7_five_second_duplicate_suppressed
    (st : PolyBot.MonitorWalletState) (pid : Option String)
    (t ex : PolyBot.WalletTrade)
    (_htx : t.txHash = none) (hmem : ex ∈ st.history)
    (hm : ex.marketId = t.marketId) (ho : ex.outcome = t.outcome)
    (hs : ex.side = t.side)
    (hts : (ex.timestamp - t.timestamp).natAbs < 5000) :
    PolyBot.isNewTrade st.history t = false ∧
    (PolyBot.processParsedTrade st pid t).2 = false ∧
    (PolyBot.processParsedTrade st pid t).1.history = st.history ∧
    (PolyBot.processParsedTrade st pid t).1.lastTimestamp = st.lastTimestamp := by
  have hnew : PolyBot.isNewTrade st.history t = false := by
    rw [Bool.eq_false_iff]
    intro hall
    rw [PolyBot.isNewTrade, List.all_eq_true] at hall
    have hex2 := hall ex hmem
    simp [hm, ho, hs, hts] at hex2
  refine ⟨hnew, ?_, ?_, ?_⟩ <;>
  · unfold PolyBot.processParsedTrade
    cases pid with
    | none => simp [hnew]
    | some p =>
      by_cases hc : p ∈ st.knownPositions
      · simp [hc]
      · simp [hc, hnew]

/-- Witness for C7: a trade 4 seconds after an already emitted trade with
the same market, outcome and side, both without transaction hash, is
suppressed and the monitor state keeps its history and watermark. -/
theorem claim7_five_second_duplicate_witness :
    PolyBot.isNewTrade
      [{ walletAddress := "w", walletName := "n", marketId := "m",
         marketQuestion := "q", outcome := PolyBot.Outcome.YES,
         side := PolyBot.Side.buy, price := 1/2, size := 10, sizeUsd := 5,
         timestamp := 1000, txHash := none }]
      { walletAddress := "w", walletName := "n", marketId := "m",
        marketQuestion := "q", outcome := PolyBot.Outcome.YES,
        side := PolyBot.Side.buy, price := 6/10, size := 20, sizeUsd := 12,
        timestamp := 5000, txHash := none } = false ∧
    (PolyBot.processParsedTrade
      { history := [{ walletAddress := "w", walletName := "n", marketId := "m",
                      marketQuestion := "q", outcome := PolyBot.Outcome.YES,
                      side := PolyBot.Side.buy, price := 1/2, size := 10,
                      sizeUsd := 5, timestamp := 1000, txHash := none }],
        knownPositions := [], lastTimestamp := some 1000 }
      none
      { walletAddress := "w", walletName := "n", marketId := "m",
        marketQuestion := "q", outcome := PolyBot.Outcome.YES,
        side := PolyBot.Side.buy, price := 6/10, size := 20, sizeUsd := 12,
        timestamp := 5000, txHash := none }).2 = false := by
  have h := claim7_five_second_duplicate_suppressed
    { history := [{ walletAddress := "w", walletName := "n", marketId := "m",
                    marketQuestion := "q", outcome := PolyBot.Outcome.YES,
                    side := PolyBot.Side.buy, price := 1/2, size := 10,
                    sizeUsd := 5, timestamp := 1000, txHash := none }],
      knownPositions := [], lastTimestamp := some 1000 }
    none
    { walletAddress := "w", walletName := "n", marketId := "m",
      marketQuestion := "q", outcome := PolyBot.Outcome.YES,
      side := PolyBot.Side.buy, price := 6/10, size := 20, sizeUsd := 12,
      timestamp := 5000, txHash := none }
    { walletAddress := "w", walletName := "n", marketId := "m",
      marketQuestion := "q", outcome := PolyBot.Outcome.YES,
      side := PolyBot.Side.buy, price := 1/2, size := 10, sizeUsd := 5,
      timestamp := 1000, txHash := none }
    rfl (List.mem_singleton.mpr rfl) rfl rfl rfl (by norm_num)
  exact ⟨h.1, h.2.1⟩

namespace PolyBot

/-- A successful `processTrade` marks the composite key as copied. -/
theorem processTrade_success_marks (wcfg : WalletConfig) (acfg : ArbitrageConfig)
    (rcfg : RiskConfig) (cache : List (String × ArbitrageOpportunity))
    (ct : CopyTraderState) (risk : RiskManagerState) (oe : OrderExecutorState)
    (t : WalletTrade) (env : ExecEnv) (now : Nat)
    (h : (processTrade wcfg acfg rcfg cache ct risk oe t env now).copied = true) :
    (processTrade wcfg acfg rcfg cache ct risk oe t env now).ctState.copiedTrades =
      tradeKey t :: ct.copiedTrades := by
  simp only [processTrade] at h ⊢
  by_cases c1 : ct.copiedTrades.contains (tradeKey t) = true
  · rw [if_pos c1] at h
    simp [skipResult] at h
  · rw [if_neg c1] at h ⊢
    by_cases c2 : (!wcfg.enabled) = true
    · rw [if_pos c2] at h
      simp [skipResult] at h
    · rw [if_neg c2] at h ⊢
      by_cases c3 : filterBlocks wcfg t.marketId = true
      · rw [if_pos c3] at h
        simp [skipResult] at h
      · rw [if_neg c3] at h ⊢
        by_cases c4 :
            (wcfg.requireArbSignal && !hasOpportunity acfg cache t.marketId) = true
        · rw [if_pos c4] at h
          simp [skipResult] at h
        · rw [if_neg c4] at h ⊢
          by_cases c5 : calculatePositionSize wcfg t ≤ 0
          · rw [if_pos c5] at h
            simp [skipResult] at h
          · rw [if_neg c5] at h ⊢
            by_cases c6 :
                (!canOpenPosition rcfg risk t.marketId
                  (calculatePositionSize wcfg t)) = true
            · rw [if_pos c6] at h
              simp [skipResult] at h
            · rw [if_neg c6] at h ⊢
              by_cases c7 :
                  (executeCopyTrade wcfg cache risk oe t
                    (calculatePositionSize wcfg t) env now).success = true
              · rw [if_pos c7]
              · rw [if_neg c7] at h
                simp at h

/-- `processTrade` of a trade whose composite key is already marked
returns false immediately. -/
theorem processTrade_marked_skips (wcfg : WalletConfig) (acfg : ArbitrageConfig)
    (rcfg : RiskConfig) (cache : List (String × ArbitrageOpportunity))
    (ct : CopyTraderState) (risk : RiskManagerState) (oe : OrderExecutorState)
    (t : WalletTrade) (env : ExecEnv) (now : Nat)
    (h : ct.copiedTrades.contains (tradeKey t) = true) :
    (processTrade wcfg acfg rcfg cache ct risk oe t env now).copied = false := by
  simp only [processTrade]
  rw [if_pos h]
  rfl

end PolyBot

/-- C10: two trades that both lack a transaction hash and share market,
outcome and side produce the same composite dedup key (the undefined hash
renders as the literal "undefined"); hence if the first is successfully
copied, `processTrade` on the second returns false regardless of its
timestamp, price or size, and regardless of the configs, cache or risk
state in effect at the second call. -/
theorem claim10_undefined_hash_collapses_dedup
    (wcfg1 wcfg2 : PolyBot.WalletConfig)
    (acfg1 acfg2 : PolyBot.ArbitrageConfig) (rcfg1 rcfg2 : PolyBot.RiskConfig)
    (cache1 cache2 : List (String × PolyBot.ArbitrageOpportunity))
    (ct : PolyBot.CopyTraderState) (risk1 risk2 : PolyBot.RiskManagerState)
    (oe1 oe2 : PolyBot.OrderExecutorState) (t1 t2 : PolyBot.WalletTrade)
    (env1 env2 : PolyBot.ExecEnv) (now1 now2 : Nat)
    (h1 : t1.txHash = none) (h2 : t2.txHash = none)
    (hm : t2.marketId = t1.marketId) (ho : t2.outcome = t1.outcome)
    (hs : t2.side = t1.side)
    (hcopied : (PolyBot.processTrade wcfg1 acfg1 rcfg1 cache1 ct risk1 oe1 t1
        env1 now1).copied = true) :
    (PolyBot.processTrade wcfg2 acfg2 rcfg2 cache2
      (PolyBot.processTrade wcfg1 acfg1 rcfg1 cache1 ct risk1 oe1 t1 env1 now1).ctState
      risk2 oe2 t2 env2 now2).copied = false := by
  have hkey : PolyBot.tradeKey t2 = PolyBot.tradeKey t1 := by
    unfold PolyBot.tradeKey
    rw [h1, h2, hm, ho, hs]
  have hct := PolyBot.processTrade_success_marks wcfg1 acfg1 rcfg1 cache1 ct
    risk1 oe1 t1 env1 now1 hcopied
  apply PolyBot.processTrade_marked_skips
  rw [hct, hkey]
  simp

/-- Witness for C10: a concrete $50,000 YES-buy without a transaction hash
is copied (directional order id `o1`), after which a second hash-less trade
in the same market, outcome and side — with different price, size and
timestamp — is skipped. -/
theorem claim10_undefined_hash_witness :
    (PolyBot.processTrade
      { address := "w", name := "n", enabled := true, minWinRate := 7/10,
        maxPositionSizeUsd := 2000, positionSizeMultiplier := 1/100,
        marketsFilter := none, requireArbSignal := false }
      { minArbProfitPct := 1/100, maxArbProfitPct := 5/100,
        internalArbEnabled := true, crossPlatformEnabled := false,
        minLiquidityUsd := 1000, maxSlippagePct := 2/100 }
      { maxTotalExposureUsd := 10000, maxPositionPerMarketUsd := 2000,
        maxDailyLossUsd := 500, enableAutoHedge := true }
      [] ⟨[]⟩ (PolyBot.initialRiskState ⟨0, 1⟩) ⟨[]⟩
      { walletAddress := "w", walletName := "n", marketId := "m",
        marketQuestion := "q", outcome := PolyBot.Outcome.YES,
        side := PolyBot.Side.buy, price := 1/2, size := 100000,
        sizeUsd := 50000, timestamp := 0, txHash := none }
      ⟨none, none, some "o1", fun _ => false⟩ 0).copied = true ∧
    (PolyBot.processTrade
      { address := "w", name := "n", enabled := true, minWinRate := 7/10,
        maxPositionSizeUsd := 2000, positionSizeMultiplier := 1/100,
        marketsFilter := none, requireArbSignal := false }
      { minArbProfitPct := 1/100, maxArbProfitPct := 5/100,
        internalArbEnabled := true, crossPlatformEnabled := false,
        minLiquidityUsd := 1000, maxSlippagePct := 2/100 }
      { maxTotalExposureUsd := 10000, maxPositionPerMarketUsd := 2000,
        maxDailyLossUsd := 500, enableAutoHedge := true }
      []
      (PolyBot.processTrade
        { address := "w", name := "n", enabled := true, minWinRate := 7/10,
          maxPositionSizeUsd := 2000, positionSizeMultiplier := 1/100,
          marketsFilter := none, requireArbSignal := false }
        { minArbProfitPct := 1/100, maxArbProfitPct := 5/100,
          internalArbEnabled := true, crossPlatformEnabled := false,
          minLiquidityUsd := 1000, maxSlippagePct := 2/100 }
        { maxTotalExposureUsd := 10000, maxPositionPerMarketUsd := 2000,
          maxDailyLossUsd := 500, enableAutoHedge := true }
        [] ⟨[]⟩ (PolyBot.initialRiskState ⟨0, 1⟩) ⟨[]⟩
        { walletAddress := "w", walletName := "n", marketId := "m",
          marketQuestion := "q", outcome := PolyBot.Outcome.YES,
          side := PolyBot.Side.buy, price := 1/2, size := 100000,
          sizeUsd := 50000, timestamp := 0, txHash := none }
        ⟨none, none, some "o1", fun _ => false⟩ 0).ctState
      (PolyBot.initialRiskState ⟨0, 1⟩) ⟨[]⟩
      { walletAddress := "w", walletName := "n", marketId := "m",
        marketQuestion := "q", outcome := PolyBot.Outcome.YES,
        side := PolyBot.Side.buy, price := 6/10, size := 10,
        sizeUsd := 6, timestamp := 999, txHash := none }
      ⟨none, none, none, fun _ => false⟩ 1).copied = false := by
  have hfirst : (PolyBot.processTrade
      { address := "w", name := "n", enabled := true, minWinRate := 7/10,
        maxPositionSizeUsd := 2000, positionSizeMultiplier := 1/100,
        marketsFilter := none, requireArbSignal := false }
      { minArbProfitPct := 1/100, maxArbProfitPct := 5/100,
        internalArbEnabled := true, crossPlatformEnabled := false,
        minLiquidityUsd := 1000, maxSlippagePct := 2/100 }
      { maxTotalExposureUsd := 10000, maxPositionPerMarketUsd := 2000,
        maxDailyLossUsd := 500, enableAutoHedge := true }
      [] ⟨[]⟩ (PolyBot.initialRiskState ⟨0, 1⟩) ⟨[]⟩
      { walletAddress := "w", walletName := "n", marketId := "m",
        marketQuestion := "q", outcome := PolyBot.Outcome.YES,
        side := PolyBot.Side.buy, price := 1/2, size := 100000,
        sizeUsd := 50000, timestamp := 0, txHash := none }
      ⟨none, none, some "o1", fun _ => false⟩ 0).copied = true := by
    norm_num [PolyBot.processTrade, PolyBot.tradeKey, PolyBot.optHashStr,
      PolyBot.skipResult, PolyBot.filterBlocks, PolyBot.hasOpportunity,
      PolyBot.calculatePositionSize, min_def, PolyBot.canOpenPosition,
      PolyBot.marketExposure, PolyBot.mapLookup, PolyBot.posSum,
      PolyBot.executeCopyTrade, PolyBot.arbBranchOpp, PolyBot.getOpportunity,
      PolyBot.placeOrder, PolyBot.recordPosition, PolyBot.initialRiskState]
  refine ⟨hfirst, ?_⟩
  exact claim10_undefined_hash_collapses_dedup _ _ _ _ _ _ _ _ _ _ _ _ _ _ _ _ _ _ _
    rfl rfl rfl rfl rfl hfirst
